import Mathlib

/-!
Verification of the agent execution loop (think/act/state machine) and the
plan-tracking orchestrator of the OpenManus_UIToCode repository.

The definitions below are a shallow embedding of `app/agent/toolcall.py`,
`app/agent/react.py`, `app/flow/base.py` and `app/flow/planning.py`.
Python exceptions are modelled with `Except`; code that catches every
exception is modelled as a total function.  Parts of the repository that the
staged sources do not contain (`app/schema.py`, `app/tool/planning.py`,
`app/tool/tool_collection.py`, `app/agent/base.py`) are modelled from the
specification and marked as such in their doc comments.
-/

/-- Agent run states. Modelled from the spec: `app/schema.py` (AgentState) is
not among the staged sources; spec section 4.1 lists IDLE, RUNNING, FINISHED. -/
inductive AgentState where
  | idle
  | running
  | finished
deriving DecidableEq

/-- Tool-choice policy sent to the reasoning oracle. Modelled from the spec:
`app/schema.py` (ToolChoice) is not among the staged sources; spec section 4.3
lists AUTO, REQUIRED, NONE. -/
inductive ToolChoice where
  | auto
  | required
  | none
deriving DecidableEq

/-- Message roles. Modelled from the spec: spec section 3, Message.role is one
of system, user, assistant, tool. -/
inductive Role where
  | system
  | user
  | assistant
  | tool
deriving DecidableEq

/-- The function part of a proposed tool call: a tool name and an opaque
argument payload. Modelled from the spec: spec section 3, ToolCall. An absent
payload stands for Python `None`. -/
structure ToolFunction where
  name : String
  arguments : Option String
deriving DecidableEq

/-- A proposed tool invocation. Modelled from the spec: spec section 3,
ToolCall is {id, tool name, argument payload}. -/
structure ToolCall where
  id : String
  function : ToolFunction
deriving DecidableEq

/-- A conversation turn. Modelled from the spec: spec section 3, Message is
{role, optional text content, zero-or-more tool-call references, optional
opaque media attachment}; tool messages also carry the call id and tool name. -/
structure Message where
  role : Role
  content : Option String
  toolCalls : List ToolCall := []
  name : Option String := Option.none
  toolCallId : Option String := Option.none
  base64Image : Option String := Option.none
deriving DecidableEq

/-- Message.user_message of the schema module, modelled from the spec. -/
def Message.userMessage (c : String) : Message :=
  { role := Role.user, content := some c }

/-- Message.system_message of the schema module, modelled from the spec. -/
def Message.systemMessage (c : String) : Message :=
  { role := Role.system, content := some c }

/-- Message.assistant_message of the schema module, modelled from the spec. -/
def Message.assistantMessage (c : String) : Message :=
  { role := Role.assistant, content := some c }

/-- Message.tool_message of the schema module, modelled from the spec: a
tool-role message carrying the observation, the call id, the tool name and any
captured media. -/
def Message.toolMessage (content : String) (callId : String) (toolName : String)
    (image : Option String) : Message :=
  { role := Role.tool, content := some content, toolCallId := some callId,
    name := some toolName, base64Image := image }

/-- Message.from_tool_calls of the schema module, modelled from the spec: an
assistant message that carries the proposed tool calls. -/
def Message.fromToolCalls (content : String) (calls : List ToolCall) : Message :=
  { role := Role.assistant, content := some content, toolCalls := calls }

/-- Python truthiness of an optional string: `None` and the empty string are
falsy. -/
def strTruthy : Option String → Bool
  | Option.none => false
  | some s => s != ""

/-- Result of a tool execution, from `app/tool/base.py` (ToolResult): output,
error, base64_image and system fields, all optional. -/
structure ToolResult where
  output : Option String := Option.none
  error : Option String := Option.none
  base64Image : Option String := Option.none
  system : Option String := Option.none
deriving DecidableEq

/-- ToolResult.__bool__ from `app/tool/base.py`: a result is truthy when any
field is truthy. -/
def ToolResult.toBool (r : ToolResult) : Bool :=
  strTruthy r.output || strTruthy r.error || strTruthy r.base64Image || strTruthy r.system

/-- ToolResult.__str__ from `app/tool/base.py`: `Error: <error>` when the error
field is truthy, else the output. -/
def ToolResult.render (r : ToolResult) : String :=
  if strTruthy r.error then "Error: " ++ r.error.getD "" else r.output.getD ""

/-- A registered tool capability: a unique name and an invocation that either
returns a ToolResult or raises (modelled with `Except`). Modelled from the
spec: spec section 2, the Tool Registry maps a tool name to a capability
object; the payload is keyed here by its raw argument text. -/
structure AgentTool where
  name : String
  run : String → Except String ToolResult

/-- Name lookup in the tool registry (`available_tools.tool_map`). Modelled
from the spec: `app/tool/tool_collection.py` is not among the staged sources. -/
def toolMapFind (tools : List AgentTool) (name : String) : Option AgentTool :=
  tools.find? (fun t => t.name == name)

/-- The name of the designated terminate tool. Modelled from the spec:
`app/tool/terminate.py` is not among the staged sources; spec section 3 names
a designated "terminate" tool. -/
def terminateName : String := "terminate"

/-- The default special-tool set of ToolCallAgent
(`special_tool_names: List[str] = Field(default_factory=lambda: [Terminate().name])`). -/
def defaultSpecialToolNames : List String := [terminateName]

/-- The state of a ToolCallAgent, from `app/agent/toolcall.py` and
`app/agent/react.py`: run state, message log (memory), pending tool calls,
tool-choice policy, special-tool names, the per-call captured media side
channel, the observation length cap, the next-step prompt and the tool
registry. -/
structure Agent where
  state : AgentState
  memory : List Message
  toolCalls : List ToolCall
  toolChoices : ToolChoice
  specialToolNames : List String
  currentBase64Image : Option String
  maxObserve : Option Nat
  nextStepPrompt : String
  availableTools : List AgentTool

/-- TOOL_CALL_REQUIRED from `app/agent/toolcall.py`. -/
def TOOL_CALL_REQUIRED : String := "Tool calls required but none provided"

/-- A Python exception escaping to the caller: a ValueError, an IndexError, or
a generic exception whose `__cause__` may be TokenLimitExceeded. -/
inductive PyExc where
  | valueError (msg : String)
  | indexError
  | exc (causeTokenLimit : Bool) (msg : String)
deriving DecidableEq

/-- Outcome of the reasoning-oracle call `llm.ask_tool` inside think(): a
response (possibly Python `None`), a raised ValueError, or another raised
exception whose cause may be the token-limit error. Modelled from the spec:
spec section 6, the oracle returns optional free text and zero-or-more
proposed tool calls, and a distinguished resource-limit failure mode. -/
structure LLMResponse where
  content : Option String
  toolCalls : List ToolCall
deriving DecidableEq

/-- The possible outcomes of the oracle call in think(). -/
inductive AskOutcome where
  | resp (r : Option LLMResponse)
  | valueError (msg : String)
  | failure (causeTokenLimit : Bool) (msg : String)
deriving DecidableEq

/-- ToolCallAgent._should_finish_execution from `app/agent/toolcall.py`:
the decision predicate defaults to always true. -/
def ToolCallAgent.should_finish_execution : Bool := true

/-- ASCII lower-casing of one character, modelling Python `str.lower` (the
Python standard library is outside the repository; the tool names involved
are ASCII). -/
def charLower (c : Char) : Char :=
  if 'A' ≤ c ∧ c ≤ 'Z' then Char.ofNat (c.toNat + 32) else c

/-- Python `str.lower` on a string, character by character. -/
def pyLower (s : String) : String := String.mk (s.data.map charLower)

/-- ToolCallAgent._is_special_tool from `app/agent/toolcall.py`: the lowercased
name is a member of the lowercased special-tool list. -/
def Agent.is_special_tool (a : Agent) (name : String) : Prop :=
  pyLower name ∈ a.specialToolNames.map pyLower

instance (a : Agent) (name : String) : Decidable (a.is_special_tool name) := by
  unfold Agent.is_special_tool
  infer_instance

/-- ToolCallAgent._handle_special_tool from `app/agent/toolcall.py`: a
non-special tool leaves the agent unchanged; a special tool whose decision
predicate confirms termination sets the state to FINISHED. -/
def ToolCallAgent.handle_special_tool (a : Agent) (name : String) : Agent :=
  if ¬ a.is_special_tool name then a
  else if ToolCallAgent.should_finish_execution then { a with state := AgentState.finished }
  else a

/-- The raw argument payload used by execute_tool:
`command.function.arguments or "{}"` (Python `or`: None and "" both fall back). -/
def rawArguments (f : ToolFunction) : String :=
  match f.arguments with
  | Option.none => "{}"
  | some s => if s = "" then "{}" else s

/-- ToolCallAgent.execute_tool from `app/agent/toolcall.py`. `parseOk` models
`json.loads` succeeding on the payload (the json module is outside the
repository). Every failure is converted to an error observation, never
raised, so the model is a total function. The Python guards
`not command or not command.function` can only fire on a missing object and
are subsumed here by the empty-name check of `not command.function.name`. -/
def ToolCallAgent.execute_tool (parseOk : String → Bool) (a : Agent)
    (command : ToolCall) : Agent × String :=
  if command.function.name = "" then (a, "Error: Invalid command format")
  else
    let name := command.function.name
    match toolMapFind a.availableTools name with
    | Option.none => (a, "Error: Unknown tool '" ++ name ++ "'")
    | some tool =>
      let raw := rawArguments command.function
      if ¬ parseOk raw then
        (a, "Error: Error parsing arguments for " ++ name ++ ": Invalid JSON format")
      else
        match tool.run raw with
        | Except.error e =>
          (a, "Error: ⚠️ Tool '" ++ name ++ "' encountered a problem: " ++ e)
        | Except.ok result =>
          let a1 := ToolCallAgent.handle_special_tool a name
          let a2 := if strTruthy result.base64Image then
              { a1 with currentBase64Image := result.base64Image }
            else a1
          let obs := if result.toBool then
              "Observed output of cmd `" ++ name ++ "` executed:\n" ++ result.render
            else "Cmd `" ++ name ++ "` completed with no output"
          (a2, obs)

/-- One iteration of the act() loop of `app/agent/toolcall.py`: reset the
captured media, execute the tool, truncate the observation when max_observe is
truthy, append the tool-role message, accumulate the observation. -/
def ToolCallAgent.act_process (parseOk : String → Bool)
    (acc : Agent × List String) (command : ToolCall) : Agent × List String :=
  let a0 := { acc.1 with currentBase64Image := Option.none }
  let r := ToolCallAgent.execute_tool parseOk a0 command
  let a1 := r.1
  let result := match a1.maxObserve with
    | some n => if n ≠ 0 then r.2.take n else r.2
    | Option.none => r.2
  let toolMsg := Message.toolMessage result command.id command.function.name
    a1.currentBase64Image
  ({ a1 with memory := a1.memory ++ [toolMsg] }, acc.2 ++ [result])

/-- ToolCallAgent.act from `app/agent/toolcall.py`. With no pending tool
calls, the REQUIRED policy raises ValueError(TOOL_CALL_REQUIRED); otherwise
the latest message content (or a placeholder when falsy) is returned; an empty
message log makes `self.messages[-1]` raise IndexError. With pending calls,
each is processed in order and the observations are joined. -/
def ToolCallAgent.act (parseOk : String → Bool) (a : Agent) :
    Except PyExc (Agent × String) :=
  if a.toolCalls.isEmpty then
    if a.toolChoices = ToolChoice.required then
      Except.error (PyExc.valueError TOOL_CALL_REQUIRED)
    else
      match a.memory.getLast? with
      | Option.none => Except.error PyExc.indexError
      | some m =>
        Except.ok (a, if strTruthy m.content then m.content.getD ""
          else "No content or commands to execute")
  else
    let r := a.toolCalls.foldl (ToolCallAgent.act_process parseOk) (a, [])
    Except.ok (r.1, String.intercalate "\n\n" r.2)

/-- ToolCallAgent.think from `app/agent/toolcall.py`. The oracle outcome is an
input; a ValueError propagates, a failure caused by TokenLimitExceeded is
converted to a synthetic assistant message plus a FINISHED state, any other
failure propagates. A `None` response raises RuntimeError, which the inner
handler converts to a synthetic assistant message and `false`. -/
def ToolCallAgent.think (a : Agent) (oracle : AskOutcome) :
    Except PyExc (Agent × Bool) :=
  let a := if a.nextStepPrompt ≠ "" then
      { a with memory := a.memory ++ [Message.userMessage a.nextStepPrompt] }
    else a
  match oracle with
  | AskOutcome.valueError msg => Except.error (PyExc.valueError msg)
  | AskOutcome.failure true msg =>
    Except.ok ({ a with
      memory := a.memory ++ [Message.assistantMessage
        ("Maximum token limit reached, cannot continue execution: " ++ msg)],
      state := AgentState.finished }, false)
  | AskOutcome.failure false msg => Except.error (PyExc.exc false msg)
  | AskOutcome.resp r =>
    let tool_calls := match r with
      | some resp => resp.toolCalls
      | Option.none => []
    let content := match r with
      | some resp => resp.content.getD ""
      | Option.none => ""
    let a := { a with toolCalls := tool_calls }
    match r with
    | Option.none =>
      Except.ok ({ a with memory := a.memory ++ [Message.assistantMessage
        "Error encountered while processing: No response received from the LLM"] },
        false)
    | some _ =>
      if a.toolChoices = ToolChoice.none then
        if content ≠ "" then
          Except.ok ({ a with
            memory := a.memory ++ [Message.assistantMessage content] }, true)
        else
          Except.ok (a, false)
      else
        let assistantMsg := if tool_calls.isEmpty then Message.assistantMessage content
          else Message.fromToolCalls content tool_calls
        let a := { a with memory := a.memory ++ [assistantMsg] }
        if a.toolChoices = ToolChoice.required ∧ tool_calls.isEmpty then
          Except.ok (a, true)
        else if a.toolChoices = ToolChoice.auto ∧ tool_calls.isEmpty then
          Except.ok (a, content != "")
        else
          Except.ok (a, !tool_calls.isEmpty)

/-- ReActAgent.step from `app/agent/react.py`: think, and if no action is
needed return the fixed string, else act. -/
def ReActAgent.step (parseOk : String → Bool) (a : Agent) (oracle : AskOutcome) :
    Except PyExc (Agent × String) :=
  match ToolCallAgent.think a oracle with
  | Except.error e => Except.error e
  | Except.ok (a1, false) => Except.ok (a1, "Thinking complete - no action needed")
  | Except.ok (a1, true) => ToolCallAgent.act parseOk a1

/-- Plan step statuses, from `app/flow/base.py` (PlanStepStatus). -/
inductive PlanStepStatus where
  | not_started
  | in_progress
  | completed
  | blocked
deriving DecidableEq

/-- The string value of a status (the `.value` of the Python str-enum). -/
def PlanStepStatus.val : PlanStepStatus → String
  | PlanStepStatus.not_started => "not_started"
  | PlanStepStatus.in_progress => "in_progress"
  | PlanStepStatus.completed => "completed"
  | PlanStepStatus.blocked => "blocked"

/-- PlanStepStatus.get_all_statuses from `app/flow/base.py`. -/
def PlanStepStatus.get_all_statuses : List String :=
  [PlanStepStatus.not_started.val, PlanStepStatus.in_progress.val,
   PlanStepStatus.completed.val, PlanStepStatus.blocked.val]

/-- PlanStepStatus.get_active_statuses from `app/flow/base.py`: not_started and
in_progress are the active statuses. -/
def PlanStepStatus.get_active_statuses : List String :=
  [PlanStepStatus.not_started.val, PlanStepStatus.in_progress.val]

/-- PlanStepStatus.get_status_marks from `app/flow/base.py`: the rendering
glyph of each status. -/
def PlanStepStatus.get_status_marks : List (String × String) :=
  [(PlanStepStatus.completed.val, "[✓]"),
   (PlanStepStatus.in_progress.val, "[→]"),
   (PlanStepStatus.blocked.val, "[!]"),
   (PlanStepStatus.not_started.val, "[ ]")]

/-- A stored plan. Modelled from the spec: `app/tool/planning.py` is not among
the staged sources; spec section 3 defines Plan as id, title, ordered steps,
step statuses (same length as steps, default not_started) and step notes. -/
structure Plan where
  title : String
  steps : List String
  step_statuses : List String
  step_notes : List String
deriving DecidableEq

/-- The plan store (`planning_tool.plans`), a dictionary from plan id to plan.
Modelled from the spec: spec section 2, the Plan Store holds one or more plans
addressed by plan id. -/
def PlanStore : Type := String → Option Plan

/-- Dictionary update of the plan store. -/
def PlanStore.set (s : PlanStore) (id : String) (p : Plan) : PlanStore :=
  fun k => if k = id then some p else s k

/-- Padding of the status and notes arrays to the step count. Modelled from
the spec: spec section 3, "status/notes arrays are always padded to match step
count before read or write". -/
def Plan.pad (p : Plan) : Plan :=
  { p with
    step_statuses := p.step_statuses ++
      List.replicate (p.steps.length - p.step_statuses.length) PlanStepStatus.not_started.val,
    step_notes := p.step_notes ++
      List.replicate (p.steps.length - p.step_notes.length) "" }

/-- The `create` operation of the plan store. Modelled from the spec: spec
section 6, `create(plan_id, title, steps)`; statuses start as not_started with
the same length as the steps. -/
def planning_create (s : PlanStore) (id : String) (title : String)
    (steps : List String) : PlanStore :=
  s.set id
    { title := title, steps := steps,
      step_statuses := List.replicate steps.length PlanStepStatus.not_started.val,
      step_notes := List.replicate steps.length "" }

/-- The `mark_step` operation of the plan store. Modelled from the spec: spec
section 6, `mark_step(plan_id, step_index, status)`; the arrays are padded to
the step count before the write, and an invalid plan id or step index raises
(modelled with `Except.error`). -/
def planning_mark_step (s : PlanStore) (id : String) (idx : Nat)
    (status : String) : Except String PlanStore :=
  match s id with
  | Option.none => Except.error ("No plan found with ID: " ++ id)
  | some p =>
    let p := p.pad
    if idx < p.step_statuses.length then
      Except.ok (s.set id { p with step_statuses := p.step_statuses.set idx status })
    else
      Except.error ("Invalid step_index: " ++ toString idx)

/-- Count of a status value in the status array, from
`_generate_plan_text_from_storage` in `app/flow/planning.py`. -/
def count_status (statuses : List String) (v : String) : Nat :=
  (statuses.filter (fun s => s == v)).length

/-- The glyph of a status string, defaulting to the not_started mark, from
`_generate_plan_text_from_storage` in `app/flow/planning.py`. -/
def status_mark (status : String) : String :=
  ((PlanStepStatus.get_status_marks).lookup status).getD "[ ]"

/-- The numbered step lines of the rendered plan text, from
`_generate_plan_text_from_storage` in `app/flow/planning.py`. -/
def render_step_lines : Nat → List (String × String × String) → String
  | _, [] => ""
  | i, (step, status, note) :: rest =>
    toString i ++ ". " ++ status_mark status ++ " " ++ step ++ "\n" ++
      (if note != "" then "   Notes: " ++ note ++ "\n" else "") ++
      render_step_lines (i + 1) rest

/-- The rendered plan text, from `_generate_plan_text_from_storage` in
`app/flow/planning.py`, on already-padded arrays. The Python progress
percentage is a float rendered with one decimal; floating point is out of
scope, so the percentage is rendered here from integer tenths (no claim
depends on this fragment of the text). -/
def render_plan_text (id : String) (title : String)
    (steps statuses notes : List String) : String :=
  let completed := count_status statuses PlanStepStatus.completed.val
  let total := steps.length
  let tenths := if total = 0 then 0 else completed * 1000 / total
  let header := "Plan: " ++ title ++ " (ID: " ++ id ++ ")\n"
  header ++ String.mk (List.replicate header.length '=') ++ "\n\n" ++
    "Progress: " ++ toString completed ++ "/" ++ toString total ++
    " steps completed (" ++ toString (tenths / 10) ++ "." ++ toString (tenths % 10) ++ "%)\n" ++
    "Status: " ++ toString completed ++ " completed, " ++
    toString (count_status statuses PlanStepStatus.in_progress.val) ++ " in progress, " ++
    toString (count_status statuses PlanStepStatus.blocked.val) ++ " blocked, " ++
    toString (count_status statuses PlanStepStatus.not_started.val) ++ " not started\n\n" ++
    "Steps:\n" ++ render_step_lines 0 (steps.zip (statuses.zip notes))

/-- The `get` operation of the plan store. Modelled from the spec: spec
section 6, `get(plan_id) -> rendered text`, returning a descriptive error for
a non-existent plan id rather than crashing; arrays are padded before the
read. -/
def planning_get (s : PlanStore) (id : String) : String :=
  match s id with
  | Option.none => "Error: No plan found with ID: " ++ id
  | some p =>
    let p := p.pad
    render_plan_text id p.title p.steps p.step_statuses p.step_notes

/-- A step's info dictionary built by `_get_current_step_info`: the step text
and the optional lowercased bracketed type tag. -/
structure StepInfo where
  text : String
  type : Option String
deriving DecidableEq

/-- A character the step-type regex `[A-Z_]+` accepts. -/
def isTagChar (c : Char) : Bool := ('A' ≤ c && c ≤ 'Z') || c == '_'

/-- The leftmost match of `re.search` with pattern bracket, `[A-Z_]+`, bracket
over the step text, from `_get_current_step_info` in `app/flow/planning.py`. -/
def find_tag : List Char → Option String
  | [] => Option.none
  | c :: rest =>
    if c = '[' then
      let run := rest.takeWhile isTagChar
      match rest.drop run.length with
      | ']' :: _ => if run.isEmpty then find_tag rest else some (String.mk run)
      | _ => find_tag rest
    else find_tag rest

/-- The step type extracted from the step text and lowercased, from
`_get_current_step_info` in `app/flow/planning.py`. -/
def extract_step_type (step : String) : Option String :=
  (find_tag step.data).map pyLower

/-- The status consulted for step index `i`: the array entry when the index is
in range, else not_started, from `_get_current_step_info` in
`app/flow/planning.py`. -/
def status_at (statuses : List String) (i : Nat) : String :=
  statuses.getD i PlanStepStatus.not_started.val

/-- Whether a status string is active (eligible for selection), from
`_get_current_step_info` in `app/flow/planning.py`:
`status in PlanStepStatus.get_active_statuses()`. -/
def is_active_status (status : String) : Bool :=
  PlanStepStatus.get_active_statuses.contains status

/-- The scan of `_get_current_step_info`: the first step, in original order,
whose consulted status is active, together with its text. -/
def first_active_go (statuses : List String) : Nat → List String → Option (Nat × String)
  | _, [] => Option.none
  | i, step :: rest =>
    if is_active_status (status_at statuses i) then some (i, step)
    else first_active_go statuses (i + 1) rest

/-- The first active step of a plan, by original step order. -/
def first_active (steps statuses : List String) : Option (Nat × String) :=
  first_active_go statuses 0 steps

/-- The state of a PlanningFlow, from `app/flow/planning.py`: the active plan
id, the planning tool's plan store, and the current step index. -/
structure PlanningFlow where
  active_plan_id : String
  plans : PlanStore
  current_step_index : Option Nat

/-- PlanningFlow._get_current_step_info from `app/flow/planning.py`.
`markFails` injects a failure of the plan-store call that marks the selected
step in_progress; on such a failure the step status array is mutated directly
(set in range, else pad with not_started and append in_progress). Returns the
updated flow and the selected index with its step info, or none. -/
def PlanningFlow.get_current_step_info (markFails : Bool) (f : PlanningFlow) :
    PlanningFlow × Option (Nat × StepInfo) :=
  if f.active_plan_id = "" then (f, Option.none)
  else
    match f.plans f.active_plan_id with
    | Option.none => (f, Option.none)
    | some plan =>
      match first_active plan.steps plan.step_statuses with
      | Option.none => (f, Option.none)
      | some (i, step) =>
        let info : StepInfo := { text := step, type := extract_step_type step }
        let marked := if markFails then Except.error "Planning tool unavailable"
          else planning_mark_step f.plans f.active_plan_id i PlanStepStatus.in_progress.val
        match marked with
        | Except.ok s1 => ({ f with plans := s1 }, some (i, info))
        | Except.error _ =>
          let statuses := plan.step_statuses
          let statuses1 := if i < statuses.length then
              statuses.set i PlanStepStatus.in_progress.val
            else
              (statuses ++ List.replicate (i - statuses.length) PlanStepStatus.not_started.val)
                ++ [PlanStepStatus.in_progress.val]
          let plan1 := { plan with step_statuses := statuses1 }
          ({ f with plans := f.plans.set f.active_plan_id plan1 }, some (i, info))

/-- PlanningFlow._mark_step_completed from `app/flow/planning.py`. `markFails`
injects a failure of the plan-store call; on failure the status array is
mutated directly (pad with not_started up to the index, then set completed). -/
def PlanningFlow.mark_step_completed (markFails : Bool) (f : PlanningFlow) :
    PlanningFlow :=
  match f.current_step_index with
  | Option.none => f
  | some idx =>
    let marked := if markFails then Except.error "Planning tool unavailable"
      else planning_mark_step f.plans f.active_plan_id idx PlanStepStatus.completed.val
    match marked with
    | Except.ok s1 => { f with plans := s1 }
    | Except.error _ =>
      match f.plans f.active_plan_id with
      | Option.none => f
      | some plan =>
        let statuses := plan.step_statuses ++
          List.replicate (idx + 1 - plan.step_statuses.length) PlanStepStatus.not_started.val
        let plan1 := { plan with step_statuses := statuses.set idx PlanStepStatus.completed.val }
        { f with plans := f.plans.set f.active_plan_id plan1 }

/-- PlanningFlow._generate_plan_text_from_storage from `app/flow/planning.py`:
pads the stored status and notes arrays to the step count (an in-place
mutation of the stored plan) and renders the plan text. -/
def PlanningFlow.generate_plan_text_from_storage (f : PlanningFlow) :
    PlanningFlow × String :=
  match f.plans f.active_plan_id with
  | Option.none => (f, "Error: Plan with ID " ++ f.active_plan_id ++ " not found")
  | some plan =>
    let plan1 := plan.pad
    ({ f with plans := f.plans.set f.active_plan_id plan1 },
     render_plan_text f.active_plan_id plan1.title plan1.steps
       plan1.step_statuses plan1.step_notes)

/-- PlanningFlow._get_plan_text from `app/flow/planning.py`: ask the plan
store for the rendered text; when that call fails (injected by `getFails`),
fall back to rendering directly from storage. -/
def PlanningFlow.get_plan_text (getFails : Bool) (f : PlanningFlow) :
    PlanningFlow × String :=
  if getFails then f.generate_plan_text_from_storage
  else (f, planning_get f.plans f.active_plan_id)

/-- The text used for the current step index inside formatted strings
(Python renders None as the string "None"). -/
def idx_text : Option Nat → String
  | some n => toString n
  | Option.none => "None"

/-- The step prompt built by `_execute_step` in `app/flow/planning.py`. -/
def step_prompt_text (plan_status : String) (idx : Option Nat)
    (step_text : String) : String :=
  "\nCURRENT PLAN STATUS:\n" ++ plan_status ++
    "\n\nYOUR CURRENT TASK:\nYou are now working on step " ++ idx_text idx ++
    ": \"" ++ step_text ++
    "\"\n\nPlease execute this step using the appropriate tools. When you're done, provide a summary of what you accomplished.\n"

/-- PlanningFlow._execute_step from `app/flow/planning.py`. `run` is the
executor agent's full run on the built step prompt (its raise modelled with
`Except.error`); the step text comes from the step info built by
`_get_current_step_info`. On success the step is marked completed; on an
exception the exception text is formatted as the step result and no status is
changed. -/
def PlanningFlow.execute_step (getFails markFails : Bool)
    (run : String → Except String String) (step_info : StepInfo)
    (f : PlanningFlow) : PlanningFlow × String :=
  let r := f.get_plan_text getFails
  let prompt := step_prompt_text r.2 f.current_step_index step_info.text
  match run prompt with
  | Except.ok stepResult => ((PlanningFlow.mark_step_completed markFails r.1), stepResult)
  | Except.error e =>
    (r.1, "Error executing step " ++ idx_text f.current_step_index ++ ": " ++ e)

/-- The environment of `_finalize_plan` from `app/flow/planning.py`: whether
the plan-text call fails, the outcome of the direct oracle summary, and the
outcome of the fallback executor-agent summary (a raise is `Except.error`). -/
structure FinalizeEnv where
  getFails : Bool
  llmSummary : Except String String
  agentSummary : Except String String

/-- PlanningFlow._finalize_plan from `app/flow/planning.py`: an oracle summary
when the oracle call succeeds, else an executor-agent summary, else a generic
completion notice. Never raises. -/
def PlanningFlow.finalize_plan (fin : FinalizeEnv) (f : PlanningFlow) :
    PlanningFlow × String :=
  let r := f.get_plan_text fin.getFails
  match fin.llmSummary with
  | Except.ok response => (r.1, "Plan completed:\n\n" ++ response)
  | Except.error _ =>
    match fin.agentSummary with
    | Except.ok summary => (r.1, "Plan completed:\n\n" ++ summary)
    | Except.error _ => (r.1, "Plan completed. Error generating summary.")

/-- The argument object of a proposed planning-tool call after JSON parsing.
Modelled from the spec: spec section 6, the Plan Store operations are
create(plan_id, title, steps), get(plan_id) and mark_step(plan_id, step_index,
status); `command` selects the operation. -/
structure PlanningArgs where
  command : String
  title : String
  steps : List String
  step_index : Nat
  step_status : String
deriving DecidableEq

/-- The planning tool's dispatch on a parsed argument object (with the plan id
forced by the orchestrator). Modelled from the spec: `app/tool/planning.py` is
not among the staged sources; an unknown command raises (`Except.error`). -/
def planning_execute (s : PlanStore) (id : String) (args : PlanningArgs) :
    Except String PlanStore :=
  if args.command = "create" then
    Except.ok (planning_create s id args.title args.steps)
  else if args.command = "mark_step" then
    planning_mark_step s id args.step_index args.step_status
  else if args.command = "get" then
    Except.ok s
  else
    Except.error ("Unrecognized command: " ++ args.command)

/-- A tool call proposed by the oracle during plan creation: the tool name and
the parsed argument object (`Option.none` when `json.loads` fails, which makes
`_create_initial_plan` skip the call). -/
structure ProposedPlanCall where
  name : String
  argsParsed : Option PlanningArgs

/-- The scan over the proposed tool calls in `_create_initial_plan` from
`app/flow/planning.py`: the first call named "planning" whose arguments parse
is executed (its raise propagates); calls with unparsable arguments are
skipped; `Except.ok Option.none` means no planning call was executed. -/
def create_plan_calls (s : PlanStore) (id : String) :
    List ProposedPlanCall → Except String (Option PlanStore)
  | [] => Except.ok Option.none
  | c :: rest =>
    if c.name = "planning" then
      match c.argsParsed with
      | Option.none => create_plan_calls s id rest
      | some args => (planning_execute s id args).map some
    else create_plan_calls s id rest

/-- The default three-step plan created when the oracle proposes no planning
call, from `_create_initial_plan` in `app/flow/planning.py`. -/
def default_plan_title (request : String) : String :=
  "Plan for: " ++ request.take 50 ++ (if request.length > 50 then "..." else "")

/-- PlanningFlow._create_initial_plan from `app/flow/planning.py`.
`askOutcome` is the oracle's plan-creation response (a raise propagates): a
list of proposed tool calls. When no planning call is executed, the
deterministic default plan is created. -/
def PlanningFlow.create_initial_plan
    (askOutcome : Except String (List ProposedPlanCall)) (request : String)
    (f : PlanningFlow) : Except String PlanningFlow :=
  match askOutcome with
  | Except.error e => Except.error e
  | Except.ok calls =>
    match create_plan_calls f.plans f.active_plan_id calls with
    | Except.error e => Except.error e
    | Except.ok (some s1) => Except.ok { f with plans := s1 }
    | Except.ok Option.none =>
      let s1 := planning_create f.plans f.active_plan_id (default_plan_title request)
        ["Analyze request", "Execute task", "Verify results"]
      Except.ok { f with plans := s1 }

/-- The per-iteration environment of the orchestration loop in
`PlanningFlow.execute`: the injected plan-store failures, the executor's run
outcome on the step prompt, and the executor's state after the run. -/
structure IterEnv where
  markSelFails : Bool
  getFails : Bool
  markDoneFails : Bool
  run : String → Except String String
  execStateAfter : AgentState

/-- The `while True` orchestration loop of `PlanningFlow.execute` from
`app/flow/planning.py`, driven by one IterEnv per iteration; an exhausted
script models a run that has not yet terminated (`Option.none`). Each
iteration selects the current step, finalizes and exits when none is active,
else executes the step, accumulates its result and a newline, and exits early
when the executor reports FINISHED. -/
def planning_loop (fin : FinalizeEnv) :
    List IterEnv → PlanningFlow → String → Option (PlanningFlow × String)
  | [], _, _ => Option.none
  | it :: rest, f, acc =>
    let sel := f.get_current_step_info it.markSelFails
    let f1 := { sel.1 with current_step_index := sel.2.map Prod.fst }
    match sel.2 with
    | Option.none =>
      let fin1 := f1.finalize_plan fin
      some (fin1.1, acc ++ fin1.2)
    | some (_, info) =>
      let r := f1.execute_step it.getFails it.markDoneFails it.run info
      let acc1 := acc ++ r.2 ++ "\n"
      if it.execStateAfter = AgentState.finished then some (r.1, acc1)
      else planning_loop fin rest r.1 acc1

/-- The environment of `PlanningFlow.execute`: whether a primary agent is
configured, the oracle outcome of plan creation, the loop script and the
finalization environment. -/
structure ExecuteEnv where
  primaryAgentExists : Bool
  askOutcome : Except String (List ProposedPlanCall)
  script : List IterEnv
  fin : FinalizeEnv

/-- The body of the `try` block of `PlanningFlow.execute` from
`app/flow/planning.py`: a raised exception is `Except.error`;
`Option.none` models a loop that has not terminated within the script. -/
def PlanningFlow.execute_body (env : ExecuteEnv) (input_text : String)
    (f : PlanningFlow) : Option (Except String String) :=
  if ¬ env.primaryAgentExists then some (Except.error "没有可用的主代理")
  else if input_text ≠ "" then
    match f.create_initial_plan env.askOutcome input_text with
    | Except.error e => some (Except.error e)
    | Except.ok f1 =>
      if (f1.plans f1.active_plan_id).isNone then
        some (Except.ok ("为: " ++ input_text ++ " 创建计划失败"))
      else
        (planning_loop env.fin env.script f1 "").map (fun r => Except.ok r.2)
  else
    (planning_loop env.fin env.script f "").map (fun r => Except.ok r.2)

/-- PlanningFlow.execute from `app/flow/planning.py`: the body wrapped in the
catch-all handler that converts every escaping exception into the string
"Execution failed: <message>". -/
def PlanningFlow.execute (env : ExecuteEnv) (input_text : String)
    (f : PlanningFlow) : Option String :=
  (f.execute_body env input_text).map (fun r =>
    match r with
    | Except.ok s => s
    | Except.error e => "Execution failed: " ++ e)

/-- C2: a token-limit-caused oracle failure inside think() appends a synthetic
assistant message containing "token limit", sets the agent state to FINISHED
and returns false, so step() returns "Thinking complete - no action needed";
a ValueError or a failure without the token-limit cause propagates unchanged. -/
theorem think_token_limit_terminates (parseOk : String → Bool) (a : Agent)
    (msg : String) :
    (∃ a1 : Agent,
      ToolCallAgent.think a (AskOutcome.failure true msg) = Except.ok (a1, false) ∧
      a1.state = AgentState.finished ∧
      (∃ m : Message, a1.memory.getLast? = some m ∧ m.role = Role.assistant ∧
        (∃ pre post : String, m.content = some (pre ++ "token limit" ++ post))) ∧
      ReActAgent.step parseOk a (AskOutcome.failure true msg) =
        Except.ok (a1, "Thinking complete - no action needed")) ∧
    (∀ m : String, ToolCallAgent.think a (AskOutcome.valueError m) =
      Except.error (PyExc.valueError m)) ∧
    (∀ m : String, ToolCallAgent.think a (AskOutcome.failure false m) =
      Except.error (PyExc.exc false m)) := by
  refine ⟨⟨_, rfl, rfl, ⟨_, List.getLast?_concat _, rfl,
    "Maximum ", " reached, cannot continue execution: " ++ msg, ?_⟩, ?_⟩,
    fun m => rfl, fun m => rfl⟩
  · have h : ("Maximum token limit reached, cannot continue execution: " : String) =
        "Maximum " ++ "token limit" ++ " reached, cannot continue execution: " := rfl
    show some (("Maximum token limit reached, cannot continue execution: " : String) ++ msg) = _
    rw [h, String.append_assoc, String.append_assoc]
  · unfold ReActAgent.step
    rfl

/-- C6: execute_tool converts every malformed call into an error observation
instead of raising: a missing tool name yields "Error: Invalid command
format", an unknown tool name yields an "Unknown tool" observation, an
argument payload that fails to parse yields an observation naming the tool
and the parse problem, and a raising tool yields an error observation. -/
theorem execute_tool_error_observations (parseOk : String → Bool) (a : Agent)
    (c : ToolCall) :
    (c.function.name = "" →
      ToolCallAgent.execute_tool parseOk a c = (a, "Error: Invalid command format")) ∧
    (c.function.name ≠ "" → toolMapFind a.availableTools c.function.name = Option.none →
      ToolCallAgent.execute_tool parseOk a c =
        (a, "Error: Unknown tool '" ++ c.function.name ++ "'")) ∧
    (∀ t : AgentTool, c.function.name ≠ "" →
      toolMapFind a.availableTools c.function.name = some t →
      parseOk (rawArguments c.function) = false →
      ToolCallAgent.execute_tool parseOk a c =
        (a, "Error: Error parsing arguments for " ++ c.function.name ++
          ": Invalid JSON format")) ∧
    (∀ (t : AgentTool) (e : String), c.function.name ≠ "" →
      toolMapFind a.availableTools c.function.name = some t →
      parseOk (rawArguments c.function) = true →
      t.run (rawArguments c.function) = Except.error e →
      ToolCallAgent.execute_tool parseOk a c =
        (a, "Error: ⚠️ Tool '" ++ c.function.name ++ "' encountered a problem: " ++ e)) := by
  refine ⟨fun h => by simp [ToolCallAgent.execute_tool, h],
    fun h hfind => by simp [ToolCallAgent.execute_tool, h, hfind],
    fun t h hfind hparse => by simp [ToolCallAgent.execute_tool, h, hfind, hparse],
    fun t e h hfind hparse hrun => by
      simp [ToolCallAgent.execute_tool, h, hfind, hparse, hrun]⟩

/-- C8: the default special-tool set contains the terminate tool; when a
special tool executes and the decision predicate (default: always true)
confirms termination, the handler sets the state to FINISHED (from RUNNING
when it was running); a non-special tool leaves the agent unchanged. -/
theorem handle_special_tool_finishes (a : Agent) (nm : String) :
    terminateName ∈ defaultSpecialToolNames ∧
    (a.is_special_tool nm → ToolCallAgent.should_finish_execution = true →
      ToolCallAgent.handle_special_tool a nm = { a with state := AgentState.finished }) ∧
    (a.state = AgentState.running → a.is_special_tool nm →
      (ToolCallAgent.handle_special_tool a nm).state = AgentState.finished) ∧
    (¬ a.is_special_tool nm → ToolCallAgent.handle_special_tool a nm = a) := by
  refine ⟨by simp [terminateName, defaultSpecialToolNames],
    fun h _ => by simp [ToolCallAgent.handle_special_tool, h,
      ToolCallAgent.should_finish_execution],
    fun _ h => by simp [ToolCallAgent.handle_special_tool, h,
      ToolCallAgent.should_finish_execution],
    fun h => by simp [ToolCallAgent.handle_special_tool, h]⟩

/-- A parse oracle that accepts every payload. -/
def pkTrue : String → Bool := fun _ => true

/-- A parse oracle that rejects every payload. -/
def pkFalse : String → Bool := fun _ => false

/-- A sample tool that returns plain output. -/
def echoTool : AgentTool := { name := "echo", run := fun _ => Except.ok { output := some "ok" } }

/-- A sample tool whose execution raises. -/
def boomTool : AgentTool := { name := "boom", run := fun _ => Except.error "kaboom" }

/-- A sample agent with the default special-tool set and two registered tools. -/
def agentTools : Agent :=
  { state := AgentState.running, memory := [], toolCalls := [],
    toolChoices := ToolChoice.auto, specialToolNames := defaultSpecialToolNames,
    currentBase64Image := Option.none, maxObserve := Option.none,
    nextStepPrompt := "", availableTools := [echoTool, boomTool] }

/-- Witness for C6 at concrete calls: missing name, the unknown tool
"frobnicate", an unparsable payload, and a raising tool. -/
theorem execute_tool_error_observations_witness :
    ToolCallAgent.execute_tool pkFalse agentTools
      { id := "c0", function := { name := "", arguments := Option.none } } =
      (agentTools, "Error: Invalid command format") ∧
    ToolCallAgent.execute_tool pkFalse agentTools
      { id := "c1", function := { name := "frobnicate", arguments := some "{}" } } =
      (agentTools, "Error: Unknown tool 'frobnicate'") ∧
    ToolCallAgent.execute_tool pkFalse agentTools
      { id := "c2", function := { name := "echo", arguments := some "not json" } } =
      (agentTools, "Error: Error parsing arguments for echo: Invalid JSON format") ∧
    ToolCallAgent.execute_tool pkTrue agentTools
      { id := "c3", function := { name := "boom", arguments := some "{}" } } =
      (agentTools, "Error: ⚠️ Tool 'boom' encountered a problem: kaboom") :=
  ⟨(execute_tool_error_observations pkFalse agentTools
      { id := "c0", function := { name := "", arguments := Option.none } }).1 rfl,
   (execute_tool_error_observations pkFalse agentTools
      { id := "c1", function := { name := "frobnicate", arguments := some "{}" } }).2.1
      (by decide) rfl,
   (execute_tool_error_observations pkFalse agentTools
      { id := "c2", function := { name := "echo", arguments := some "not json" } }).2.2.1
      echoTool (by decide) rfl rfl,
   (execute_tool_error_observations pkTrue agentTools
      { id := "c3", function := { name := "boom", arguments := some "{}" } }).2.2.2
      boomTool "kaboom" (by decide) rfl rfl rfl⟩

/-- Witness for C8 at the concrete special tool "terminate" and the
non-special tool "echo". -/
theorem handle_special_tool_finishes_witness :
    ToolCallAgent.handle_special_tool agentTools "terminate" =
      { agentTools with state := AgentState.finished } ∧
    ToolCallAgent.handle_special_tool agentTools "echo" = agentTools :=
  ⟨(handle_special_tool_finishes agentTools "terminate").2.1 (by decide) rfl,
   (handle_special_tool_finishes agentTools "echo").2.2.2 (by decide)⟩

/-- C7: under the NONE policy think() never appends a tool-call message even
when the oracle proposes calls; the free-text content is appended as an
assistant message exactly when non-empty, and think() returns true iff the
content is non-empty. -/
theorem think_none_policy (a : Agent) (r : LLMResponse)
    (h : a.toolChoices = ToolChoice.none) :
    (ToolCallAgent.think a (AskOutcome.resp (some r)) =
      Except.ok ({ a with
                   toolCalls := r.toolCalls,
                   memory := a.memory ++
                     ((if a.nextStepPrompt ≠ "" then [Message.userMessage a.nextStepPrompt] else []) ++
                      (if r.content.getD "" ≠ "" then [Message.assistantMessage (r.content.getD "")] else [])) },
        (r.content.getD "" != ""))) ∧
    (∀ m ∈ (if a.nextStepPrompt ≠ "" then [Message.userMessage a.nextStepPrompt] else []) ++
        (if r.content.getD "" ≠ "" then [Message.assistantMessage (r.content.getD "")] else []),
      m.toolCalls = []) := by
  constructor
  · obtain ⟨st, mem, tc, pol, sp, b64, mo, prompt, tools⟩ := a
    simp only [ToolCallAgent.think]
    by_cases hp : prompt ≠ "" <;>
      by_cases hc : r.content.getD "" ≠ "" <;>
        simp_all [Message.userMessage, Message.assistantMessage]
  · intro m hm
    rcases List.mem_append.mp hm with h1 | h2
    · by_cases hp : a.nextStepPrompt ≠ "" <;> simp_all [Message.userMessage]
    · by_cases hc : r.content.getD "" ≠ "" <;> simp_all [Message.assistantMessage]

/-- A sample agent operating under the NONE tool-choice policy. -/
def agentNone : Agent := { agentTools with toolChoices := ToolChoice.none }

/-- A sample oracle response proposing a tool call together with free text. -/
def rNone : LLMResponse :=
  { content := some "hi",
    toolCalls := [{ id := "c9", function := { name := "echo", arguments := some "{}" } }] }

/-- Witness for C7 at a concrete NONE-policy agent and an oracle response that
proposes a tool call: no tool-call message is appended, the free text becomes
an assistant message, and think() returns true. -/
theorem think_none_policy_witness :
    ToolCallAgent.think agentNone (AskOutcome.resp (some rNone)) =
      Except.ok ({ agentNone with
                   toolCalls := rNone.toolCalls,
                   memory := agentNone.memory ++ [Message.assistantMessage "hi"] },
        true) := by
  have h := (think_none_policy agentNone rNone rfl).1
  simpa [agentNone, agentTools, rNone] using h

/-- A sample non-REQUIRED agent whose latest message has empty content. -/
def agentEmptyLast : Agent :=
  { agentTools with memory := [Message.assistantMessage ""] }

/-- Counterexample for C5: with no pending tool calls under a non-REQUIRED
policy and a latest message whose content is the empty string, act() returns
the placeholder "No content or commands to execute" rather than the latest
message's content verbatim. -/
theorem act_verbatim_counterexample :
    agentEmptyLast.toolCalls = [] ∧
    agentEmptyLast.toolChoices = ToolChoice.auto ∧
    agentEmptyLast.memory.getLast? = some (Message.assistantMessage "") ∧
    ToolCallAgent.act pkTrue agentEmptyLast =
      Except.ok (agentEmptyLast, "No content or commands to execute") ∧
    "No content or commands to execute" ≠ "" :=
  ⟨rfl, rfl, rfl, rfl, by decide⟩

/-- C5 (amended): under REQUIRED, think() still returns true when the oracle
proposed no tool calls, and act() with no pending calls raises
"Tool calls required but none provided"; under any other policy, act() with no
pending calls and a non-empty message log raises nothing and returns the
latest message's content when that content is non-empty, and the placeholder
"No content or commands to execute" when it is empty or absent. -/
theorem act_no_pending_calls (parseOk : String → Bool) (a : Agent)
    (h : a.toolCalls = []) :
    (a.toolChoices = ToolChoice.required →
      ToolCallAgent.act parseOk a =
        Except.error (PyExc.valueError TOOL_CALL_REQUIRED)) ∧
    (∀ rS : LLMResponse, a.toolChoices = ToolChoice.required → rS.toolCalls = [] →
      ∃ a1 : Agent, ToolCallAgent.think a (AskOutcome.resp (some rS)) =
        Except.ok (a1, true)) ∧
    (∀ m : Message, a.toolChoices ≠ ToolChoice.required → a.memory.getLast? = some m →
      ToolCallAgent.act parseOk a =
        Except.ok (a, if strTruthy m.content then m.content.getD ""
          else "No content or commands to execute")) := by
  refine ⟨fun hreq => by simp [ToolCallAgent.act, h, hreq], ?_, ?_⟩
  · intro rS hreq hcalls
    obtain ⟨st, mem, tc, pol, sp, b64, mo, prompt, tools⟩ := a
    obtain ⟨c, tcs⟩ := rS
    dsimp only at hreq hcalls
    subst hreq
    subst hcalls
    by_cases hp : prompt = ""
    · subst hp
      exact ⟨_, rfl⟩
    · exact ⟨{ state := st,
               memory := mem ++ [Message.userMessage prompt,
                 Message.assistantMessage (c.getD "")],
               toolCalls := [], toolChoices := ToolChoice.required,
               specialToolNames := sp, currentBase64Image := b64, maxObserve := mo,
               nextStepPrompt := prompt, availableTools := tools },
             by simp [ToolCallAgent.think, hp]⟩
  · intro m hpol hlast
    simp [ToolCallAgent.act, h, hpol, hlast]

/-- A sample REQUIRED-policy agent with no pending tool calls. -/
def agentRequired : Agent :=
  { agentTools with
    toolChoices := ToolChoice.required,
    memory := [Message.assistantMessage "hello"] }

/-- A sample AUTO-policy agent whose latest message has content "hello". -/
def agentAutoHello : Agent :=
  { agentTools with memory := [Message.assistantMessage "hello"] }

/-- Witness for C5 (amended) at concrete agents: the REQUIRED error, the
REQUIRED think() returning true with no proposed calls, and the non-REQUIRED
no-op result returning the non-empty latest content. -/
theorem act_no_pending_calls_witness :
    ToolCallAgent.act pkTrue agentRequired =
      Except.error (PyExc.valueError TOOL_CALL_REQUIRED) ∧
    (∃ a1 : Agent, ToolCallAgent.think agentRequired
      (AskOutcome.resp (some { content := some "just text", toolCalls := [] })) =
        Except.ok (a1, true)) ∧
    ToolCallAgent.act pkTrue agentAutoHello = Except.ok (agentAutoHello, "hello") := by
  refine ⟨(act_no_pending_calls pkTrue agentRequired rfl).1 rfl,
    (act_no_pending_calls pkTrue agentRequired rfl).2.1
      { content := some "just text", toolCalls := [] } rfl rfl, ?_⟩
  have h := (act_no_pending_calls pkTrue agentAutoHello rfl).2.2
    (Message.assistantMessage "hello") (by decide) rfl
  simpa [Message.assistantMessage, strTruthy] using h

/-- A canonical agent used to read off the parts of execute_tool that depend
only on the tool registry: the per-call observation and captured media. -/
def baseAgentFor (tools : List AgentTool) : Agent :=
  { state := AgentState.idle, memory := [], toolCalls := [],
    toolChoices := ToolChoice.auto, specialToolNames := [],
    currentBase64Image := Option.none, maxObserve := Option.none,
    nextStepPrompt := "", availableTools := tools }

/-- Spec-side description (for the C3 refinement statement): the raw
observation produced by one tool call, a function of the registry and the
call alone. -/
def spec_raw_observation (parseOk : String → Bool) (tools : List AgentTool)
    (c : ToolCall) : String :=
  (ToolCallAgent.execute_tool parseOk (baseAgentFor tools) c).2

/-- Spec-side description: the media captured by one tool call when the side
channel was reset before the invocation. -/
def spec_media (parseOk : String → Bool) (tools : List AgentTool)
    (c : ToolCall) : Option String :=
  (ToolCallAgent.execute_tool parseOk (baseAgentFor tools) c).1.currentBase64Image

/-- Spec-side description: truncation of an observation to the configured
maximum length when one is set (Python truthiness: 0 disables it). -/
def spec_truncate (maxObserve : Option Nat) (s : String) : String :=
  match maxObserve with
  | some n => if n ≠ 0 then s.take n else s
  | Option.none => s

/-- Spec-side description: the observation delivered for one call. -/
def spec_observation (parseOk : String → Bool) (tools : List AgentTool)
    (maxObserve : Option Nat) (c : ToolCall) : String :=
  spec_truncate maxObserve (spec_raw_observation parseOk tools c)

/-- Spec-side description: the tool-role message appended for one call,
carrying the truncated observation, the call id, the tool name and the
captured media. -/
def spec_tool_message (parseOk : String → Bool) (tools : List AgentTool)
    (maxObserve : Option Nat) (c : ToolCall) : Message :=
  Message.toolMessage (spec_observation parseOk tools maxObserve c)
    c.id c.function.name (spec_media parseOk tools c)

/-- The special-tool handler only ever rewrites the agent's state field. -/
theorem handle_special_tool_state_shape (a : Agent) (nm : String) :
    ∃ st : AgentState, ToolCallAgent.handle_special_tool a nm = { a with state := st } := by
  unfold ToolCallAgent.handle_special_tool
  by_cases h : a.is_special_tool nm
  · exact ⟨AgentState.finished, by simp [h, ToolCallAgent.should_finish_execution]⟩
  · exact ⟨a.state, by simp [h]⟩

/-- execute_tool only rewrites the state and media fields of the agent, and
its observation depends only on the registry and the call; when the media
side channel was reset beforehand, the captured media is the spec-side one. -/
theorem execute_tool_shape (parseOk : String → Bool) (a : Agent) (c : ToolCall) :
    ∃ (st : AgentState) (b64 : Option String),
      ToolCallAgent.execute_tool parseOk a c =
        ({ a with state := st, currentBase64Image := b64 },
          spec_raw_observation parseOk a.availableTools c) ∧
      (a.currentBase64Image = Option.none →
        b64 = spec_media parseOk a.availableTools c) := by
  by_cases hname : c.function.name = ""
  · exact ⟨a.state, a.currentBase64Image,
      by simp [ToolCallAgent.execute_tool, spec_raw_observation, baseAgentFor, hname],
      fun h => by
        simp [spec_media, ToolCallAgent.execute_tool, baseAgentFor, hname, h]⟩
  · rcases hfind : toolMapFind a.availableTools c.function.name with _ | t
    · exact ⟨a.state, a.currentBase64Image,
        by simp [ToolCallAgent.execute_tool, spec_raw_observation, baseAgentFor,
          hname, hfind],
        fun h => by
          simp [spec_media, ToolCallAgent.execute_tool, baseAgentFor, hname, hfind, h]⟩
    · by_cases hparse : parseOk (rawArguments c.function)
      · rcases hrun : t.run (rawArguments c.function) with e | res
        · exact ⟨a.state, a.currentBase64Image,
            by simp [ToolCallAgent.execute_tool, spec_raw_observation, baseAgentFor,
              hname, hfind, hparse, hrun],
            fun h => by
              simp [spec_media, ToolCallAgent.execute_tool, baseAgentFor, hname,
                hfind, hparse, hrun, h]⟩
        · obtain ⟨st1, hst1⟩ := handle_special_tool_state_shape a c.function.name
          by_cases hb : strTruthy res.base64Image
          · exact ⟨st1, res.base64Image,
              by simp [ToolCallAgent.execute_tool, spec_raw_observation, baseAgentFor,
                hname, hfind, hparse, hrun, hb, hst1],
              fun _ => by
                simp [spec_media, ToolCallAgent.execute_tool, baseAgentFor, hname,
                  hfind, hparse, hrun, hb, hst1]⟩
          · obtain ⟨st2, hst2⟩ := handle_special_tool_state_shape
              (baseAgentFor a.availableTools) c.function.name
            simp only [baseAgentFor] at hst2
            exact ⟨st1, a.currentBase64Image,
              by simp [ToolCallAgent.execute_tool, spec_raw_observation, baseAgentFor,
                hname, hfind, hparse, hrun, hb, hst1],
              fun h => by
                simp [spec_media, ToolCallAgent.execute_tool, baseAgentFor, hname,
                  hfind, hparse, hrun, hb, hst1, hst2, h]⟩
      · exact ⟨a.state, a.currentBase64Image,
          by simp [ToolCallAgent.execute_tool, spec_raw_observation, baseAgentFor,
            hname, hfind, hparse],
          fun h => by
            simp [spec_media, ToolCallAgent.execute_tool, baseAgentFor, hname,
              hfind, hparse, h]⟩

/-- One act() iteration: the media channel is reset, the tool executed, the
observation truncated, and exactly one tool-role message appended; only the
state and media fields of the agent change besides the appended message. -/
theorem act_process_step (parseOk : String → Bool) (a : Agent) (acc : List String)
    (c : ToolCall) :
    ∃ st : AgentState, ToolCallAgent.act_process parseOk (a, acc) c =
      ({ a with
         state := st,
         currentBase64Image := spec_media parseOk a.availableTools c,
         memory := a.memory ++ [spec_tool_message parseOk a.availableTools a.maxObserve c] },
       acc ++ [spec_observation parseOk a.availableTools a.maxObserve c]) := by
  obtain ⟨stA, mem, tc, pol, sp, b64A, mo, prompt, tools⟩ := a
  obtain ⟨st1, b1, hexe, hmedia⟩ := execute_tool_shape parseOk
    { state := stA, memory := mem, toolCalls := tc, toolChoices := pol,
      specialToolNames := sp, currentBase64Image := Option.none, maxObserve := mo,
      nextStepPrompt := prompt, availableTools := tools } c
  have hb1 : b1 = spec_media parseOk tools c := hmedia rfl
  subst hb1
  refine ⟨st1, ?_⟩
  simp only [ToolCallAgent.act_process]
  rw [hexe]
  rcases mo with _ | n <;>
    simp [spec_observation, spec_truncate, spec_tool_message]

/-- The act() loop over a call list: the agent's message log grows by exactly
one spec-side tool message per call, in call order, and the accumulated
observations are the spec-side observations in call order. -/
theorem act_process_fold (parseOk : String → Bool) (cs : List ToolCall) :
    ∀ (a : Agent) (acc : List String),
    ∃ (st : AgentState) (b64 : Option String),
      cs.foldl (ToolCallAgent.act_process parseOk) (a, acc) =
        ({ a with
           state := st,
           currentBase64Image := b64,
           memory := a.memory ++
             cs.map (spec_tool_message parseOk a.availableTools a.maxObserve) },
         acc ++ cs.map (spec_observation parseOk a.availableTools a.maxObserve)) := by
  induction cs with
  | nil =>
    intro a acc
    exact ⟨a.state, a.currentBase64Image, by simp⟩
  | cons c cs ih =>
    intro a acc
    obtain ⟨st1, hstep⟩ := act_process_step parseOk a acc c
    obtain ⟨st2, b2, hrest⟩ := ih
      { a with
        state := st1,
        currentBase64Image := spec_media parseOk a.availableTools c,
        memory := a.memory ++ [spec_tool_message parseOk a.availableTools a.maxObserve c] }
      (acc ++ [spec_observation parseOk a.availableTools a.maxObserve c])
    refine ⟨st2, b2, ?_⟩
    rw [List.foldl_cons, hstep, hrest]
    obtain ⟨stA, mem, tc, pol, sp, b64A, mo, prompt, tools⟩ := a
    simp [List.append_assoc]

/-- C3: act() with pending tool calls executes them strictly in the proposed
order, resetting the captured media before each invocation, appends exactly
one tool-role message per call (carrying the truncated observation, the call
id, the tool name and any captured media) in that same order, and returns the
observations joined in call order. -/
theorem act_executes_in_order (parseOk : String → Bool) (a : Agent)
    (h : a.toolCalls ≠ []) :
    ∃ (st : AgentState) (b64 : Option String),
      ToolCallAgent.act parseOk a = Except.ok
        ({ a with
           state := st,
           currentBase64Image := b64,
           memory := a.memory ++
             a.toolCalls.map (spec_tool_message parseOk a.availableTools a.maxObserve) },
          String.intercalate "\n\n" (a.toolCalls.map
            (spec_observation parseOk a.availableTools a.maxObserve))) := by
  obtain ⟨st, b64, hfold⟩ := act_process_fold parseOk a.toolCalls a []
  refine ⟨st, b64, ?_⟩
  have hne : a.toolCalls.isEmpty = false := by
    cases hcs : a.toolCalls with
    | nil => exact absurd hcs h
    | cons x xs => rfl
  simp only [ToolCallAgent.act, hne, Bool.false_eq_true, if_false]
  rw [hfold]
  simp

/-- A sample agent with two pending tool calls. -/
def agentTwoCalls : Agent :=
  { agentTools with toolCalls :=
      [{ id := "c1", function := { name := "echo", arguments := some "{}" } },
       { id := "c2", function := { name := "boom", arguments := some "{}" } }] }

/-- Witness for C3 at a concrete agent with two pending calls. -/
theorem act_executes_in_order_witness :
    ∃ (st : AgentState) (b64 : Option String),
      ToolCallAgent.act pkTrue agentTwoCalls = Except.ok
        ({ agentTwoCalls with
           state := st,
           currentBase64Image := b64,
           memory := agentTwoCalls.memory ++
             agentTwoCalls.toolCalls.map
               (spec_tool_message pkTrue agentTwoCalls.availableTools
                 agentTwoCalls.maxObserve) },
          String.intercalate "\n\n" (agentTwoCalls.toolCalls.map
            (spec_observation pkTrue agentTwoCalls.availableTools
              agentTwoCalls.maxObserve))) :=
  act_executes_in_order pkTrue agentTwoCalls (by decide)

/-- Padding with the default value is invisible to defaulted indexing. -/
theorem getD_append_replicate (d : String) :
    ∀ (xs : List String) (k i : Nat),
      (xs ++ List.replicate k d).getD i d = xs.getD i d := by
  intro xs
  induction xs with
  | nil =>
    intro k i
    induction k generalizing i with
    | zero => simp
    | succ k ih =>
      cases i with
      | zero => simp [List.replicate_succ]
      | succ i =>
        rw [List.replicate_succ]
        simp
  | cons x xs ih =>
    intro k i
    cases i with
    | zero => simp
    | succ i => simpa using ih k i

/-- Defaulted indexing after an update: at the updated in-range position. -/
theorem getD_set_self (d v : String) :
    ∀ (xs : List String) (i : Nat), i < xs.length →
      (xs.set i v).getD i d = v := by
  intro xs
  induction xs with
  | nil => intro i h; simp at h
  | cons x xs ih =>
    intro i h
    cases i with
    | zero => simp
    | succ i => simpa using ih i (by simpa using h)

/-- Defaulted indexing after an update: away from the updated position. -/
theorem getD_set_ne (d v : String) :
    ∀ (xs : List String) (i j : Nat), j ≠ i →
      (xs.set i v).getD j d = xs.getD j d := by
  intro xs
  induction xs with
  | nil => intro i j _; simp
  | cons x xs ih =>
    intro i j hne
    cases i with
    | zero =>
      cases j with
      | zero => exact absurd rfl hne
      | succ j => simp
    | succ i =>
      cases j with
      | zero => simp
      | succ j => simpa using ih i j (fun h => hne (by simp [h]))

/-- Updating a position to the value it already holds is the identity. -/
theorem set_getD_self (v : String) :
    ∀ (xs : List String) (i : Nat), i < xs.length →
      xs.getD i v = v → xs.set i v = xs := by
  intro xs
  induction xs with
  | nil => intro i h; simp at h
  | cons x xs ih =>
    intro i h hv
    cases i with
    | zero => simpa using hv.symm
    | succ i =>
      simp only [List.set_cons_succ, List.cons.injEq, true_and]
      exact ih i (by simpa using h) (by simpa using hv)

/-- The padding invariant of a stored plan: the status and notes arrays cover
every step (spec section 3, the Plan invariant; this is the property of C1). -/
def plan_inv (p : Plan) : Prop :=
  p.steps.length ≤ p.step_statuses.length ∧ p.steps.length ≤ p.step_notes.length

/-- The store-wide padding invariant. -/
def store_inv (s : PlanStore) : Prop :=
  ∀ id p, s id = some p → plan_inv p

/-- Padding establishes the invariant. -/
theorem plan_inv_pad (p : Plan) : plan_inv p.pad := by
  obtain ⟨t, steps, st, notes⟩ := p
  constructor <;> simp [Plan.pad] <;> omega

/-- Padding is the identity on plans that satisfy the invariant. -/
theorem pad_eq_self {p : Plan} (h : plan_inv p) : p.pad = p := by
  obtain ⟨t, steps, st, notes⟩ := p
  obtain ⟨h1, h2⟩ := h
  simp only [Plan.pad]
  simp_all [Nat.sub_eq_zero_of_le]

/-- Store update evaluated at the updated key. -/
theorem store_set_self (s : PlanStore) (id : String) (p : Plan) :
    (s.set id p) id = some p := by
  simp [PlanStore.set]

/-- Store update evaluated away from the updated key. -/
theorem store_set_ne (s : PlanStore) (id k : String) (p : Plan) (h : k ≠ id) :
    (s.set id p) k = s k := by
  simp [PlanStore.set, h]

/-- Updating a key with the value it already holds is the identity. -/
theorem store_set_eq_self (s : PlanStore) (id : String) (p : Plan)
    (h : s id = some p) : s.set id p = s := by
  funext k
  by_cases hk : k = id
  · subst hk; simp [PlanStore.set, h]
  · simp [PlanStore.set, hk]

/-- Updating the same key twice keeps only the second value; here with equal
values it collapses. -/
theorem store_set_set (s : PlanStore) (id : String) (p q : Plan) :
    (s.set id p).set id q = s.set id q := by
  funext k
  by_cases hk : k = id <;> simp [PlanStore.set, hk]

/-- The store invariant is preserved by updating with an invariant plan. -/
theorem store_inv_set {s : PlanStore} (hs : store_inv s) {p : Plan}
    (hp : plan_inv p) (id : String) : store_inv (s.set id p) := by
  intro k q hq
  by_cases hk : k = id
  · subst hk
    rw [store_set_self] at hq
    cases hq
    exact hp
  · rw [store_set_ne _ _ _ _ hk] at hq
    exact hs k q hq

/-- The scan never returns an index below its starting index. -/
theorem first_active_go_ge (statuses : List String) :
    ∀ (steps : List String) (k i : Nat) (step : String),
      first_active_go statuses k steps = some (i, step) → k ≤ i := by
  intro steps
  induction steps with
  | nil => intro k i step h; simp [first_active_go] at h
  | cons s rest ih =>
    intro k i step h
    by_cases ha : is_active_status (status_at statuses k)
    · simp [first_active_go, ha] at h
      obtain ⟨hk, _⟩ := h
      omega
    · have := ih (k + 1) i step (by simpa [first_active_go, ha] using h)
      omega

/-- The index returned by the scan is within the step list (counting from the
starting offset). -/
theorem first_active_go_lt (statuses : List String) :
    ∀ (steps : List String) (k i : Nat) (step : String),
      first_active_go statuses k steps = some (i, step) → i < k + steps.length := by
  intro steps
  induction steps with
  | nil => intro k i step h; simp [first_active_go] at h
  | cons s rest ih =>
    intro k i step h
    simp only [List.length_cons]
    by_cases ha : is_active_status (status_at statuses k)
    · simp [first_active_go, ha] at h
      obtain ⟨hk, _⟩ := h
      omega
    · have := ih (k + 1) i step (by simpa [first_active_go, ha] using h)
      omega

/-- The index selected by the scan is an index of the step list. -/
theorem first_active_lt (steps statuses : List String) (i : Nat) (step : String)
    (h : first_active steps statuses = some (i, step)) : i < steps.length := by
  simpa using first_active_go_lt statuses steps 0 i step h

/-- The scan result is stable under any change of the status array that keeps
the consulted statuses below the selected index and keeps the selected index
active. -/
theorem first_active_go_stable (st0 st1 : List String) :
    ∀ (steps : List String) (k i : Nat) (step : String),
      first_active_go st0 k steps = some (i, step) →
      (∀ j, k ≤ j → j < i → status_at st1 j = status_at st0 j) →
      is_active_status (status_at st1 i) = true →
      first_active_go st1 k steps = some (i, step) := by
  intro steps
  induction steps with
  | nil => intro k i step h; simp [first_active_go] at h
  | cons s rest ih =>
    intro k i step h hbelow hact
    by_cases ha : is_active_status (status_at st0 k)
    · simp [first_active_go, ha] at h
      obtain ⟨hk, hs⟩ := h
      subst hk
      subst hs
      simp [first_active_go, hact]
    · have hk : k + 1 ≤ i := first_active_go_ge st0 rest (k + 1) i step
        (by simpa [first_active_go, ha] using h)
      have hkk : status_at st1 k = status_at st0 k :=
        hbelow k (Nat.le_refl k) (by omega)
      simp only [first_active_go, hkk, ha, if_false]
      rw [if_neg (by simp [ha])]
      exact ih (k + 1) i step (by simpa [first_active_go, ha] using h)
        (fun j hj1 hj2 => hbelow j (Nat.le_of_succ_le hj1) hj2) hact

/-- Under the invariant, marking a step within range in the plan store is
exactly an in-place update of the status array. -/
theorem planning_mark_step_inv (s : PlanStore) (id : String) (p : Plan) (i : Nat)
    (status : String) (hs : s id = some p) (hinv : plan_inv p)
    (hi : i < p.steps.length) :
    planning_mark_step s id i status =
      Except.ok (s.set id { p with step_statuses := p.step_statuses.set i status }) := by
  unfold planning_mark_step
  simp only [hs]
  rw [pad_eq_self hinv]
  rw [if_pos (lt_of_lt_of_le hi hinv.1)]

/-- Under the invariant, selecting the next step behaves the same whether or
not the store call fails: when an active step exists at index i, that step's
status is set to in_progress (in place) and i is returned with its step info;
otherwise the flow is unchanged and no step is returned. -/
theorem get_current_step_info_spec (mf : Bool) (f : PlanningFlow) (p : Plan)
    (hid : f.active_plan_id ≠ "") (hp : f.plans f.active_plan_id = some p)
    (hinv : plan_inv p) :
    f.get_current_step_info mf =
      match first_active p.steps p.step_statuses with
      | Option.none => (f, Option.none)
      | some (i, step) =>
        ({ f with
           plans := f.plans.set f.active_plan_id
             { p with step_statuses :=
                 p.step_statuses.set i PlanStepStatus.in_progress.val } },
         some (i, { text := step, type := extract_step_type step })) := by
  unfold PlanningFlow.get_current_step_info
  rw [if_neg hid]
  simp only [hp]
  rcases hfa : first_active p.steps p.step_statuses with _ | ⟨i, step⟩
  · simp
  · have hi : i < p.steps.length := first_active_lt _ _ _ _ hfa
    have hilen : i < p.step_statuses.length := lt_of_lt_of_le hi hinv.1
    cases mf
    · simp [planning_mark_step_inv f.plans f.active_plan_id p i
        PlanStepStatus.in_progress.val hp hinv hi]
    · simp [hilen]


/-- Defaulted indexing in range does not depend on the default. -/
theorem getD_default_irrel (d1 d2 : String) :
    ∀ (xs : List String) (i : Nat), i < xs.length → xs.getD i d1 = xs.getD i d2 := by
  intro xs
  induction xs with
  | nil => intro i h; simp at h
  | cons x xs ih =>
    intro i h
    cases i with
    | zero => simp
    | succ i => simpa using ih i (by simpa using h)

/-- Selecting the next step on a plan whose first active step already is
in_progress returns that step and leaves the flow unchanged. -/
theorem get_current_step_info_again (mf2 : Bool) (f1 : PlanningFlow) (p1 : Plan)
    (i : Nat) (step : String)
    (hid : f1.active_plan_id ≠ "") (hp : f1.plans f1.active_plan_id = some p1)
    (hinv : plan_inv p1)
    (hfa : first_active p1.steps p1.step_statuses = some (i, step))
    (hlen : i < p1.step_statuses.length)
    (hstat : p1.step_statuses.getD i PlanStepStatus.not_started.val =
      PlanStepStatus.in_progress.val) :
    f1.get_current_step_info mf2 =
      (f1, some (i, { text := step, type := extract_step_type step })) := by
  rw [get_current_step_info_spec mf2 f1 p1 hid hp hinv, hfa]
  have hgets : p1.step_statuses.getD i PlanStepStatus.in_progress.val =
      PlanStepStatus.in_progress.val := by
    rw [← getD_default_irrel _ _ _ _ hlen]
    exact hstat
  have hset := set_getD_self _ p1.step_statuses i hlen hgets
  obtain ⟨t, steps, st, notes⟩ := p1
  simp only at hset
  simp only [hset]
  have hplans := store_set_eq_self f1.plans f1.active_plan_id _ hp
  simp only [hplans]

/-- C4: selecting the next step twice in a row with no intervening mutation
returns the same index and the same step info (text and type tag) both times,
and the second call leaves the plan store unchanged: re-marking an already
in_progress step is a no-op. -/
theorem select_next_step_idempotent (mf1 mf2 : Bool) (f : PlanningFlow) (p : Plan)
    (hid : f.active_plan_id ≠ "") (hp : f.plans f.active_plan_id = some p)
    (hinv : plan_inv p) :
    ((f.get_current_step_info mf1).1.get_current_step_info mf2).2 =
      (f.get_current_step_info mf1).2 ∧
    ((f.get_current_step_info mf1).1.get_current_step_info mf2).1.plans =
      (f.get_current_step_info mf1).1.plans := by
  rw [get_current_step_info_spec mf1 f p hid hp hinv]
  rcases hfa : first_active p.steps p.step_statuses with _ | ⟨i, step⟩
  · simp only
    rw [get_current_step_info_spec mf2 f p hid hp hinv]
    simp only [hfa]
    exact ⟨trivial, trivial⟩
  · simp only
    have hi : i < p.steps.length := first_active_lt _ _ _ _ hfa
    have hlen : i < p.step_statuses.length := lt_of_lt_of_le hi hinv.1
    have hlen1 : i < (p.step_statuses.set i PlanStepStatus.in_progress.val).length := by
      simpa [List.length_set] using hlen
    have hinv1 : plan_inv
        { p with step_statuses := p.step_statuses.set i PlanStepStatus.in_progress.val } := by
      constructor
      · simpa [List.length_set] using hinv.1
      · exact hinv.2
    have hact : is_active_status
        (status_at (p.step_statuses.set i PlanStepStatus.in_progress.val) i) = true := by
      rw [status_at, getD_set_self _ _ _ _ hlen]
      decide
    have hbelow : ∀ j, 0 ≤ j → j < i →
        status_at (p.step_statuses.set i PlanStepStatus.in_progress.val) j =
          status_at p.step_statuses j := by
      intro j _ hj
      rw [status_at, status_at, getD_set_ne _ _ _ _ _ (Nat.ne_of_lt hj)]
    have hfa1 : first_active p.steps
        (p.step_statuses.set i PlanStepStatus.in_progress.val) = some (i, step) :=
      first_active_go_stable p.step_statuses _ p.steps 0 i step hfa hbelow hact
    have hagain := get_current_step_info_again mf2
      ⟨f.active_plan_id,
       f.plans.set f.active_plan_id
         { p with step_statuses := p.step_statuses.set i PlanStepStatus.in_progress.val },
       f.current_step_index⟩
      { p with step_statuses := p.step_statuses.set i PlanStepStatus.in_progress.val }
      i step hid (store_set_self _ _ _) hinv1 hfa1 hlen1
      (getD_set_self _ _ p.step_statuses i hlen)
    rw [hagain]
    exact ⟨rfl, rfl⟩

/-- A successful plan-store mark_step preserves the store-wide padding
invariant (the write pads before updating). -/
theorem planning_mark_step_store_inv {s : PlanStore} (hs : store_inv s)
    (id : String) (idx : Nat) (status : String) {s1 : PlanStore}
    (h : planning_mark_step s id idx status = Except.ok s1) : store_inv s1 := by
  unfold planning_mark_step at h
  split at h
  · exact Except.noConfusion h
  · next p heq =>
    dsimp only at h
    split at h
    · next hidx =>
      cases h
      apply store_inv_set hs
      have hpad := plan_inv_pad p
      constructor
      · simpa [List.length_set] using hpad.1
      · exact hpad.2
    · exact Except.noConfusion h

/-- C1: the padding invariant (status and notes arrays at least as long as the
step list) is established by plan creation and preserved by every orchestrator
read or write of the plan: selecting the next step (with or without a store
failure), marking a step completed (with or without a store failure), and
rendering the plan text (with or without a store failure). -/
theorem status_padding_invariant (f : PlanningFlow) :
    (∀ (s : PlanStore) (id title : String) (steps : List String),
      store_inv s → store_inv (planning_create s id title steps)) ∧
    (∀ mf : Bool, store_inv f.plans → store_inv ((f.get_current_step_info mf).1.plans)) ∧
    (∀ mf : Bool, store_inv f.plans → store_inv ((f.mark_step_completed mf).plans)) ∧
    (∀ gf : Bool, store_inv f.plans → store_inv ((f.get_plan_text gf).1.plans)) := by
  refine ⟨?_, ?_, ?_, ?_⟩
  · intro s id title steps hs
    apply store_inv_set hs
    constructor <;> simp
  · intro mf hs
    by_cases hid : f.active_plan_id = ""
    · unfold PlanningFlow.get_current_step_info
      rw [if_pos hid]
      exact hs
    · cases hlook : f.plans f.active_plan_id with
      | none =>
        unfold PlanningFlow.get_current_step_info
        rw [if_neg hid]
        simp only [hlook]
        exact hs
      | some p =>
        have hinvp := hs _ _ hlook
        rw [get_current_step_info_spec mf f p hid hlook hinvp]
        rcases hfa : first_active p.steps p.step_statuses with _ | ⟨i, step⟩
        · exact hs
        · simp only
          apply store_inv_set hs
          constructor
          · simpa [List.length_set] using hinvp.1
          · exact hinvp.2
  · intro mf hs
    unfold PlanningFlow.mark_step_completed
    cases hidx : f.current_step_index with
    | none => exact hs
    | some idx =>
      simp only
      cases mf
      · cases hm : planning_mark_step f.plans f.active_plan_id idx
          PlanStepStatus.completed.val with
        | ok s1 =>
          simp only [Bool.false_eq_true, if_false, hm]
          exact planning_mark_step_store_inv hs _ _ _ hm
        | error e =>
          simp only [Bool.false_eq_true, if_false, hm]
          cases hlook : f.plans f.active_plan_id with
          | none => exact hs
          | some p =>
            simp only
            apply store_inv_set hs
            have hinvp := hs _ _ hlook
            constructor
            · simp [List.length_set, List.length_append, List.length_replicate]
              have := hinvp.1
              omega
            · exact hinvp.2
      · simp only [if_pos rfl]
        cases hlook : f.plans f.active_plan_id with
        | none => exact hs
        | some p =>
          simp only
          apply store_inv_set hs
          have hinvp := hs _ _ hlook
          constructor
          · simp [List.length_set, List.length_append, List.length_replicate]
            have := hinvp.1
            omega
          · exact hinvp.2
  · intro gf hs
    cases gf
    · exact hs
    · unfold PlanningFlow.get_plan_text PlanningFlow.generate_plan_text_from_storage
      simp only [if_pos rfl]
      cases hlook : f.plans f.active_plan_id with
      | none => exact hs
      | some p =>
        simp only
        exact store_inv_set hs (plan_inv_pad p) _

/-- The sample plan created by the deterministic default-plan fallback. -/
def samplePlan : Plan :=
  { title := "T", steps := ["Analyze request", "Execute task", "Verify results"],
    step_statuses := List.replicate 3 PlanStepStatus.not_started.val,
    step_notes := List.replicate 3 "" }

/-- A sample plan store holding exactly the sample plan under "plan_1". -/
def sampleStore : PlanStore :=
  planning_create (fun _ => Option.none) "plan_1" "T"
    ["Analyze request", "Execute task", "Verify results"]

/-- A sample flow addressing the sample plan. -/
def sampleFlow : PlanningFlow :=
  { active_plan_id := "plan_1", plans := sampleStore,
    current_step_index := Option.none }

/-- The sample store satisfies the store-wide padding invariant. -/
theorem sample_store_inv : store_inv sampleStore := by
  intro id p h
  by_cases hid : id = "plan_1"
  · subst hid
    have : sampleStore "plan_1" = some samplePlan := rfl
    rw [this] at h
    cases h
    exact ⟨by decide, by decide⟩
  · have : sampleStore id = Option.none := by
      simp [sampleStore, planning_create, PlanStore.set, hid]
    rw [this] at h
    cases h

/-- Witness for C1 at the sample flow: the invariant survives creation, next
step selection, completion marking (with an injected store failure), and plan
text rendering from storage. -/
theorem status_padding_invariant_witness :
    store_inv (planning_create (fun _ => Option.none) "plan_1" "T" ["Analyze request"]) ∧
    store_inv ((sampleFlow.get_current_step_info false).1.plans) ∧
    store_inv ((sampleFlow.mark_step_completed true).plans) ∧
    store_inv ((sampleFlow.get_plan_text true).1.plans) :=
  ⟨(status_padding_invariant sampleFlow).1 (fun _ => Option.none) "plan_1" "T"
      ["Analyze request"] (fun _ _ h => Option.noConfusion h),
   (status_padding_invariant sampleFlow).2.1 false sample_store_inv,
   (status_padding_invariant sampleFlow).2.2.1 true sample_store_inv,
   (status_padding_invariant sampleFlow).2.2.2 true sample_store_inv⟩

/-- Witness for C4 at the sample flow, exercising a failing first store call
and a succeeding second one. -/
theorem select_next_step_idempotent_witness :
    ((sampleFlow.get_current_step_info true).1.get_current_step_info false).2 =
      (sampleFlow.get_current_step_info true).2 ∧
    ((sampleFlow.get_current_step_info true).1.get_current_step_info false).1.plans =
      (sampleFlow.get_current_step_info true).1.plans :=
  select_next_step_idempotent true false sampleFlow samplePlan (by decide) rfl
    ⟨by decide, by decide⟩

/-- Under the invariant, fetching the plan text (with or without the store
failure fallback) leaves the flow state unchanged. -/
theorem get_plan_text_frame (gf : Bool) (f : PlanningFlow) (p : Plan)
    (hp : f.plans f.active_plan_id = some p) (hinv : plan_inv p) :
    (f.get_plan_text gf).1 = f := by
  cases gf
  · rfl
  · unfold PlanningFlow.get_plan_text PlanningFlow.generate_plan_text_from_storage
    simp only [if_pos rfl, hp]
    rw [pad_eq_self hinv]
    simp [store_set_eq_self f.plans f.active_plan_id p hp]

/-- C9: when the executor's run raises while executing a plan step, the
orchestrator catches it and returns the exception text formatted as the
step's result, the flow (in particular every step status) is left unchanged
and the step is not marked completed; and the orchestration loop proceeds to
its next iteration instead of aborting whenever the executor does not report
FINISHED. -/
theorem execute_step_error_no_mark (gf mf : Bool)
    (run : String → Except String String) (info : StepInfo) (f : PlanningFlow)
    (p : Plan) (e : String)
    (hp : f.plans f.active_plan_id = some p) (hinv : plan_inv p)
    (hrun : ∀ prompt, run prompt = Except.error e) :
    f.execute_step gf mf run info =
      (f, "Error executing step " ++ idx_text f.current_step_index ++ ": " ++ e) ∧
    (∀ (fin : FinalizeEnv) (it : IterEnv) (rest : List IterEnv) (acc : String)
       (i : Nat) (info1 : StepInfo) (f1 : PlanningFlow),
      f.get_current_step_info it.markSelFails = (f1, some (i, info1)) →
      it.execStateAfter ≠ AgentState.finished →
      planning_loop fin (it :: rest) f acc =
        planning_loop fin rest
          (PlanningFlow.execute_step it.getFails it.markDoneFails it.run info1
            { f1 with current_step_index := some i }).1
          (acc ++ (PlanningFlow.execute_step it.getFails it.markDoneFails it.run info1
            { f1 with current_step_index := some i }).2 ++ "\n")) := by
  constructor
  · unfold PlanningFlow.execute_step
    simp only [hrun]
    rw [get_plan_text_frame gf f p hp hinv]
  · intro fin it rest acc i info1 f1 hsel hfin
    simp only [planning_loop, hsel]
    rw [if_neg hfin]
    simp [Option.map_some']

/-- An executor run that always raises. -/
def failRun : String → Except String String := fun _ => Except.error "executor crashed"

/-- Witness for C9 at the sample flow: the exception text becomes the step
result and the flow is unchanged. -/
theorem execute_step_error_no_mark_witness :
    sampleFlow.execute_step true false failRun
      { text := "Analyze request", type := Option.none } =
      (sampleFlow, "Error executing step None: executor crashed") :=
  (execute_step_error_no_mark true false failRun
    { text := "Analyze request", type := Option.none } sampleFlow samplePlan
    "executor crashed" rfl ⟨by decide, by decide⟩ (fun _ => rfl)).1

/-- C10: PlanningFlow.execute never raises to its caller. A missing primary
agent yields exactly "Execution failed: 没有可用的主代理"; any exception
escaping plan creation is converted to "Execution failed: <message>"; a plan
id absent from the store after creation yields the descriptive failure string
instead of an exception; and in general every terminating run returns either
a normal body result or a caught exception rendered as "Execution failed:
<message>". -/
theorem flow_execute_never_raises (env : ExecuteEnv) (input : String)
    (f : PlanningFlow) :
    (env.primaryAgentExists = false →
      PlanningFlow.execute env input f = some ("Execution failed: 没有可用的主代理")) ∧
    (∀ e : String, env.primaryAgentExists = true → input ≠ "" →
      f.create_initial_plan env.askOutcome input = Except.error e →
      PlanningFlow.execute env input f = some ("Execution failed: " ++ e)) ∧
    (∀ f1 : PlanningFlow, env.primaryAgentExists = true → input ≠ "" →
      f.create_initial_plan env.askOutcome input = Except.ok f1 →
      f1.plans f1.active_plan_id = Option.none →
      PlanningFlow.execute env input f = some ("为: " ++ input ++ " 创建计划失败")) ∧
    (∀ r : String, PlanningFlow.execute env input f = some r →
      (∃ e : String, f.execute_body env input = some (Except.error e) ∧
        r = "Execution failed: " ++ e) ∨
      f.execute_body env input = some (Except.ok r)) := by
  refine ⟨?_, ?_, ?_, ?_⟩
  · intro hmiss
    unfold PlanningFlow.execute PlanningFlow.execute_body
    simp [hmiss]
  · intro e hprim hinput hcreate
    unfold PlanningFlow.execute PlanningFlow.execute_body
    simp [hprim, hinput, hcreate]
  · intro f1 hprim hinput hcreate hmiss
    unfold PlanningFlow.execute PlanningFlow.execute_body
    simp [hprim, hinput, hcreate, hmiss]
  · intro r hr
    unfold PlanningFlow.execute at hr
    cases hbody : f.execute_body env input with
    | none => rw [hbody] at hr; cases hr
    | some res =>
      rw [hbody] at hr
      cases res with
      | ok s =>
        right
        simp only [Option.map_some'] at hr
        cases hr
        rfl
      | error e =>
        left
        simp only [Option.map_some'] at hr
        cases hr
        exact ⟨e, rfl, rfl⟩

/-- A sample finalization environment whose oracle summary succeeds. -/
def finSample : FinalizeEnv :=
  { getFails := false, llmSummary := Except.ok "summary",
    agentSummary := Except.ok "summary" }

/-- An execution environment with no primary agent configured. -/
def envNoPrimary : ExecuteEnv :=
  { primaryAgentExists := false, askOutcome := Except.ok [], script := [],
    fin := finSample }

/-- An execution environment whose plan-creation oracle call raises. -/
def envCreateRaises : ExecuteEnv :=
  { primaryAgentExists := true, askOutcome := Except.error "llm down",
    script := [], fin := finSample }

/-- An execution environment whose oracle proposes a planning call that does
not create the active plan (a "get" command), leaving the plan id absent. -/
def envPlanMissing : ExecuteEnv :=
  { primaryAgentExists := true,
    askOutcome := Except.ok
      [{ name := "planning",
         argsParsed := some
           { command := "get", title := "", steps := [], step_index := 0,
             step_status := "" } }],
    script := [], fin := finSample }

/-- A flow over an empty plan store. -/
def emptyFlow : PlanningFlow :=
  { active_plan_id := "plan_1", plans := fun _ => Option.none,
    current_step_index := Option.none }

/-- Witness for C10 at concrete environments: the missing-primary-agent
failure string, a converted plan-creation exception, the descriptive
missing-plan string, and the shape of a terminating run's result. -/
theorem flow_execute_never_raises_witness :
    PlanningFlow.execute envNoPrimary "task" emptyFlow =
      some ("Execution failed: 没有可用的主代理") ∧
    PlanningFlow.execute envCreateRaises "task" emptyFlow =
      some ("Execution failed: llm down") ∧
    PlanningFlow.execute envPlanMissing "task" emptyFlow =
      some ("为: task 创建计划失败") ∧
    ((∃ e : String, emptyFlow.execute_body envNoPrimary "task" =
        some (Except.error e) ∧
        "Execution failed: 没有可用的主代理" = "Execution failed: " ++ e) ∨
      emptyFlow.execute_body envNoPrimary "task" =
        some (Except.ok "Execution failed: 没有可用的主代理")) :=
  ⟨(flow_execute_never_raises envNoPrimary "task" emptyFlow).1 rfl,
   (flow_execute_never_raises envCreateRaises "task" emptyFlow).2.1 "llm down"
     rfl (by decide) rfl,
   (flow_execute_never_raises envPlanMissing "task" emptyFlow).2.2.1 emptyFlow
     rfl (by decide) rfl rfl,
   (flow_execute_never_raises envNoPrimary "task" emptyFlow).2.2.2
     "Execution failed: 没有可用的主代理" rfl⟩
